import Mathlib

/-!
# Verification of the free-easy-table interaction state machine

Shallow embedding of the interaction core of the `free-easy-table` repository:
the keyboard-navigation handler, the editable-cell session, the drag-resize
session, the contextual menus and the grid-mutation callbacks, translated from
`src/components/Table.tsx`, `src/components/ContextMenu.tsx` (which also
contains `EditableCell` and the icon module), `src/components/menuItemsFactory.tsx`,
`src/App.tsx`, `src/types.ts` and the legacy duplicated table variant in
`src/unnamed/part_000`.

All numbers that JavaScript keeps as `number` and that only ever hold integral
values (pointer coordinates, widths, heights) are modelled as `Int`; grid
indices are `Nat`.
-/

set_option autoImplicit false

namespace FreeEasyTable

/-! ## Data model (`src/types.ts`) -/

/-- `fontWeight: 'normal' | 'bold'` from `src/types.ts`. -/
inductive FontWeight where
  | normal
  | bold
deriving DecidableEq, Repr

/-- `interface Cell` from `src/types.ts`. -/
structure Cell where
  id : String
  content : String
  color : String
  backgroundColor : String
  fontSize : Nat
  fontWeight : FontWeight
deriving DecidableEq, Repr

/-- `type CellStyle = Omit<Cell, 'id' | 'content'>` from `src/types.ts`. -/
structure CellStyle where
  color : String
  backgroundColor : String
  fontSize : Nat
  fontWeight : FontWeight
deriving DecidableEq, Repr

/-- `interface Column` from `src/types.ts`. -/
structure Column where
  id : String
  isHeader : Bool
  width : Int
deriving DecidableEq, Repr

/-- The `{ row, col }` coordinate records used for `activeCell`/`editingCell`
in `src/components/Table.tsx`. -/
structure Coord where
  row : Nat
  col : Nat
deriving DecidableEq, Repr

/-- `const MIN_COL_WIDTH = 50` (`src/components/Table.tsx` line 11). -/
def MIN_COL_WIDTH : Int := 50

/-- `const MIN_ROW_HEIGHT = 28` (`src/components/Table.tsx` line 12). -/
def MIN_ROW_HEIGHT : Int := 28

/-! ## Tab navigation

The `'Tab'` case of the global `handleKeyDown` in `src/components/Table.tsx`
(lines 75-86).  JavaScript computes
`(currentIdx - 1 + numCols*numRows) % (numCols*numRows)` for Shift-Tab; since
`currentIdx ≥ 0` and `numCols*numRows ≥ 1` in every rendered state, the
operand is nonnegative, so the truncation-free `Nat` form
`(currentIdx + n - 1) % n` denotes the same value. -/

/-- The new `activeCell` computed by the `'Tab'` case of the global
`handleKeyDown` (`src/components/Table.tsx` lines 75-86). -/
def tabNext (numRows numCols : Nat) (a : Coord) (shift : Bool) : Coord :=
  let n := numCols * numRows
  let currentIdx := a.row * numCols + a.col
  let nextIdx := if shift then (currentIdx + n - 1) % n else (currentIdx + 1) % n
  ⟨nextIdx / numCols, nextIdx % numCols⟩

/-- The new cell computed by the `'Tab'` branch of `EditableCell.handleKeyDown`
(`src/components/ContextMenu.tsx` lines 182-194); textually the same
computation as the global handler's. -/
def editTabNext (numRows numCols rowIndex colIndex : Nat) (shift : Bool) : Coord :=
  let n := numCols * numRows
  let currentIdx := rowIndex * numCols + colIndex
  let nextIdx := if shift then (currentIdx + n - 1) % n else (currentIdx + 1) % n
  ⟨nextIdx / numCols, nextIdx % numCols⟩

/-! ## Resize session (`src/components/Table.tsx` lines 38, 99-138) -/

/-- The `'col' | 'row'` discriminant of the `resizing` state. -/
inductive ResizeType where
  | col
  | row
deriving DecidableEq, Repr

/-- The `resizing` state record
`{ type: 'col' | 'row'; index: number; startPos: number; startSize: number }`
(`src/components/Table.tsx` line 38). -/
structure Resizing where
  type : ResizeType
  index : Nat
  startPos : Int
  startSize : Int
deriving DecidableEq, Repr

/-- A size-mutation request emitted to the owner:
`updateColumnWidth(index, width)` or `updateRowHeight(index, height)`. -/
inductive SizeReq where
  | colWidth (index : Nat) (width : Int)
  | rowHeight (index : Nat) (height : Int)
deriving DecidableEq, Repr

/-- `handleMouseMove` (`src/components/Table.tsx` lines 99-110): for an active
session, emit `max(startSize + (pointer - startPos), MIN_SIZE)` along the
session's axis; with no session, emit nothing. -/
def handleMouseMove (resizing : Option Resizing) (clientX clientY : Int) : List SizeReq :=
  match resizing with
  | none => []
  | some rz =>
    match rz.type with
    | .col => [.colWidth rz.index (max (rz.startSize + (clientX - rz.startPos)) MIN_COL_WIDTH)]
    | .row => [.rowHeight rz.index (max (rz.startSize + (clientY - rz.startPos)) MIN_ROW_HEIGHT)]

/-! ## Edit session (`EditableCell` in `src/components/ContextMenu.tsx`) -/

/-- A content-mutation request `updateCellContent(rowIndex, colIndex, content)`. -/
structure ContentReq where
  rowIndex : Nat
  colIndex : Nat
  content : String
deriving DecidableEq, Repr

/-- `commitChanges` (`src/components/ContextMenu.tsx` lines 160-165): emit
`updateCellContent(rowIndex, colIndex, inputValue)` exactly when the buffer
differs from the committed content, and call `setEditingCell(null)`.  The
first component is the list of emitted requests, the second the value passed
to `setEditingCell`. -/
def commitChanges (inputValue content : String) (rowIndex colIndex : Nat) :
    List ContentReq × Option Coord :=
  (if inputValue ≠ content then [⟨rowIndex, colIndex, inputValue⟩] else [], none)

/-- The keys `EditableCell.handleKeyDown` distinguishes
(`src/components/ContextMenu.tsx` lines 167-195). -/
inductive EditKey where
  | escape
  | enter (shift : Bool)
  | tab (shift : Bool)
  | other
deriving DecidableEq, Repr

/-- The observable effect of one `EditableCell` handler invocation:
emitted content requests, the last `setEditingCell` call (if any), the last
`setActiveCell` call (if any), and the resulting input buffer. -/
structure EditResult where
  emits : List ContentReq
  setEditing : Option (Option Coord)
  setActive : Option Coord
  inputValue : String
deriving DecidableEq, Repr

/-- `EditableCell.handleKeyDown` (`src/components/ContextMenu.tsx` lines
167-195).  Escape resets the buffer and re-activates the cell; Enter without
Shift commits and moves the active cell down one clamped row; Tab commits and
re-enters edit at the next linear cell; Shift+Enter and all other keys do
nothing at this level (the newline is inserted by the textarea itself). -/
def handleEditKeyDown (numRows numCols rowIndex colIndex : Nat)
    (inputValue content : String) (key : EditKey) : EditResult :=
  match key with
  | .escape =>
      { emits := [], setEditing := some none,
        setActive := some ⟨rowIndex, colIndex⟩, inputValue := content }
  | .enter false =>
      let c := commitChanges inputValue content rowIndex colIndex
      let nextRow := min (numRows - 1) (rowIndex + 1)
      { emits := c.1, setEditing := some c.2,
        setActive := some ⟨nextRow, colIndex⟩, inputValue := inputValue }
  | .enter true =>
      { emits := [], setEditing := none, setActive := none, inputValue := inputValue }
  | .tab shift =>
      let c := commitChanges inputValue content rowIndex colIndex
      let nextActiveCell := editTabNext numRows numCols rowIndex colIndex shift
      { emits := c.1, setEditing := some (some nextActiveCell),
        setActive := some nextActiveCell, inputValue := inputValue }
  | .other =>
      { emits := [], setEditing := none, setActive := none, inputValue := inputValue }

/-! ## Clipboard/style bridge
(`src/components/Table.tsx` lines 187-207, `src/App.tsx` lines 55-63) -/

/-- `const { id, content, ...style } = cell` in `handleCopyStyle`
(`src/components/Table.tsx` line 194): the rest-spread keeps exactly the four
style attributes. -/
def copyStyleOf (cell : Cell) : CellStyle :=
  ⟨cell.color, cell.backgroundColor, cell.fontSize, cell.fontWeight⟩

/-- `handleCopyStyle` (`src/components/Table.tsx` line 194): overwrite the
shared `copiedStyle` slot with the source cell's style, whatever the slot
held before. -/
def handleCopyStyle (cell : Cell) (_prevCopiedStyle : Option CellStyle) : Option CellStyle :=
  some (copyStyleOf cell)

/-- `Partial<CellStyle>` from `src/types.ts`: each attribute optionally present. -/
structure PartialCellStyle where
  color : Option String
  backgroundColor : Option String
  fontSize : Option Nat
  fontWeight : Option FontWeight
deriving DecidableEq, Repr

/-- A full `CellStyle` passed where `Partial<CellStyle>` is expected
(as in `handlePasteStyle`): every attribute present. -/
def CellStyle.toPartial (s : CellStyle) : PartialCellStyle :=
  ⟨some s.color, some s.backgroundColor, some s.fontSize, some s.fontWeight⟩

/-- The object spread `{ ...cell, ...styles }` in `updateCellStyles`
(`src/App.tsx` line 60): attributes present in `styles` win. -/
def spreadStyles (cell : Cell) (styles : PartialCellStyle) : Cell :=
  { cell with
    color := styles.color.getD cell.color
    backgroundColor := styles.backgroundColor.getD cell.backgroundColor
    fontSize := styles.fontSize.getD cell.fontSize
    fontWeight := styles.fontWeight.getD cell.fontWeight }

/-- `updateCellStyles` (`src/App.tsx` lines 55-63): copy-on-write replacement
of the addressed cell by `{ ...cell, ...styles }`.  The menu only issues this
request for a rendered cell, so both indices are in range; out-of-range
indices leave the grid unchanged here. -/
def updateCellStyles (tableData : List (List Cell)) (rowIndex colIndex : Nat)
    (styles : PartialCellStyle) : List (List Cell) :=
  match tableData.get? rowIndex with
  | none => tableData
  | some row =>
    match row.get? colIndex with
    | none => tableData
    | some cell => tableData.set rowIndex (row.set colIndex (spreadStyles cell styles))

/-- The style-mutation requests issued by `handlePasteStyle`
(`src/components/Table.tsx` line 195): one request if `copiedStyle` is set,
none otherwise. -/
def pasteStyleRequests (copiedStyle : Option CellStyle) (rowIndex colIndex : Nat) :
    List (Nat × Nat × PartialCellStyle) :=
  match copiedStyle with
  | none => []
  | some s => [(rowIndex, colIndex, s.toPartial)]

/-- `handlePasteStyle` (`src/components/Table.tsx` line 195) composed with the
owner's `updateCellStyles`: apply the copied style to the target cell when the
slot is set, otherwise do nothing. -/
def handlePasteStyle (copiedStyle : Option CellStyle) (tableData : List (List Cell))
    (rowIndex colIndex : Nat) : List (List Cell) :=
  match copiedStyle with
  | none => tableData
  | some s => updateCellStyles tableData rowIndex colIndex s.toPartial

/-! ## JavaScript-level semantics of `updateCellContent` (`src/App.tsx` lines 45-53)

`updateCellContent` is invoked by the asynchronous clipboard handlers of
`getCellMenuItems` (`src/components/Table.tsx` lines 190-192) with the row and
column indices captured when the menu was opened.  At that point the grid may
have shrunk, so the JavaScript behaviour at out-of-range indices matters:
`[...prevData[rowIndex]]` throws a `TypeError` when `prevData[rowIndex]` is
`undefined`, and `newData[rowIndex][colIndex] = { ...undefined, content }`
extends the row with an object holding only `content`.  The model keeps those
JavaScript values explicit. -/

/-- A JavaScript array slot as `updateCellContent` can produce it: a proper
`Cell`, the malformed `{ content }` object produced by spreading `undefined`,
or an array hole (`undefined`). -/
inductive JsVal where
  | cell (c : Cell)
  | partialCell (content : String)
  | undefined
deriving DecidableEq, Repr

/-- The spread `{ ...v, content }` of `src/App.tsx` line 50 when `v` is the
slot read back from the row. -/
def jsSpreadSetContent (v : JsVal) (content : String) : JsVal :=
  match v with
  | .cell c => .cell { c with content := content }
  | .partialCell _ => .partialCell content
  | .undefined => .partialCell content

/-- JavaScript array read `row[i]`: `undefined` beyond the current length. -/
def jsGetIdx (row : List JsVal) (i : Nat) : JsVal :=
  (row.get? i).getD .undefined

/-- JavaScript array index assignment `row[i] = v`: in-place overwrite when in
range, otherwise extension with holes up to index `i`. -/
def jsIndexAssign (row : List JsVal) (i : Nat) (v : JsVal) : List JsVal :=
  if i < row.length then row.set i v
  else row ++ List.replicate (i - row.length) .undefined ++ [v]

/-- `updateCellContent` (`src/App.tsx` lines 45-53) with JavaScript array
semantics.  `.error ()` is the `TypeError` thrown by `[...undefined]` when
`rowIndex` is out of range; for an in-range row the cell slot at `colIndex`
is replaced (or the row extended) by `{ ...slot, content }` with no bounds
check on `colIndex`. -/
def updateCellContentJs (tableData : List (List JsVal)) (rowIndex colIndex : Nat)
    (content : String) : Except Unit (List (List JsVal)) :=
  match tableData.get? rowIndex with
  | none => .error ()
  | some row =>
      .ok (tableData.set rowIndex
            (jsIndexAssign row colIndex (jsSpreadSetContent (jsGetIdx row colIndex) content)))

/-- The resolution of `handlePaste` (`src/components/Table.tsx` line 192):
once `navigator.clipboard.readText()` resolves, the handler calls
`updateCellContent(rowIndex, colIndex, text)` unconditionally — there is no
bounds validation between the `await` and the mutation. -/
def handlePasteResolve (tableData : List (List JsVal)) (rowIndex colIndex : Nat)
    (text : String) : Except Unit (List (List JsVal)) :=
  updateCellContentJs tableData rowIndex colIndex text

/-- Embed a well-formed grid of cells into the JavaScript-value grid. -/
def toJsGrid (tableData : List (List Cell)) : List (List JsVal) :=
  tableData.map (List.map JsVal.cell)

/-! ## Structural mutation: `deleteColumn` (`src/App.tsx` lines 94-98) -/

/-- `list.filter((_, i) => i !== j)` starting the index counter at `i`. -/
def filterOutIndexAux {α : Type} (j : Nat) : Nat → List α → List α
  | _, [] => []
  | i, x :: xs =>
      if i ≠ j then x :: filterOutIndexAux j (i + 1) xs
      else filterOutIndexAux j (i + 1) xs

/-- `list.filter((_, i) => i !== colIndex)` as used for both the column list
and every row in `deleteColumn`. -/
def filterOutIndex {α : Type} (l : List α) (j : Nat) : List α :=
  filterOutIndexAux j 0 l

/-- `deleteColumn` (`src/App.tsx` lines 94-98): guarded by
`if (columns && columns.length <= 1) return;`, otherwise filters the addressed
index out of the column list and out of every row.  `rowHeights` is never
touched by this callback. -/
def deleteColumn (columns : List Column) (tableData : List (List Cell))
    (rowHeights : List Int) (colIndex : Nat) :
    List Column × List (List Cell) × List Int :=
  if columns.length ≤ 1 then (columns, tableData, rowHeights)
  else (filterOutIndex columns colIndex,
        tableData.map (fun row => filterOutIndex row colIndex),
        rowHeights)

/-! ## The `Table` component state machine (`src/components/Table.tsx`)

One state value per `useState` hook of the component; one event per handler.
The grid dimensions `numRows`/`numCols` are the props the handlers read
(`props.tableData.length` / `props.columns.length`). -/

/-- `type ContextMenuData` from `src/types.ts` (column-header menu). -/
structure ContextMenuData where
  x : Int
  y : Int
  colIndex : Nat
deriving DecidableEq, Repr

/-- `type CellContextMenuData` from `src/types.ts` (cell menu). -/
structure CellContextMenuData where
  x : Int
  y : Int
  rowIndex : Nat
  colIndex : Nat
deriving DecidableEq, Repr

/-- The five `useState` hooks of the `Table` component
(`src/components/Table.tsx` lines 34-38). -/
structure TableState where
  activeCell : Option Coord
  editingCell : Option Coord
  contextMenu : Option ContextMenuData
  cellContextMenu : Option CellContextMenuData
  resizing : Option Resizing
deriving DecidableEq, Repr

/-- All five hooks are initialised with `null`. -/
def initialTableState : TableState :=
  ⟨none, none, none, none, none⟩

/-- The keys the global `handleKeyDown` distinguishes
(`src/components/Table.tsx` lines 41-92). -/
inductive Key where
  | arrowUp
  | arrowDown
  | arrowLeft
  | arrowRight
  | enter
  | tab (shift : Bool)
  | other
deriving DecidableEq, Repr

/-- `e.key.startsWith('Arrow')`. -/
def Key.isArrow : Key → Bool
  | .arrowUp | .arrowDown | .arrowLeft | .arrowRight => true
  | _ => false

/-- The global `handleKeyDown` (`src/components/Table.tsx` lines 41-92):
ignore everything while editing; a first arrow press establishes `{0,0}`;
arrows clamp via `Math.max(0, ·)` / `Math.min(count - 1, ·)` (for `Nat` rows
and `numRows ≥ 1`, as in every rendered state, `Nat` truncated subtraction
and `min` coincide with the JavaScript expressions); Enter begins an edit on
the active cell; Tab moves to the next linear cell. -/
def handleKeyDown (numRows numCols : Nat) (s : TableState) (key : Key) : TableState :=
  if s.editingCell.isSome then s
  else
    match s.activeCell with
    | none => if key.isArrow then { s with activeCell := some ⟨0, 0⟩ } else s
    | some a =>
      match key with
      | .arrowUp => { s with activeCell := some ⟨a.row - 1, a.col⟩ }
      | .arrowDown => { s with activeCell := some ⟨min (numRows - 1) (a.row + 1), a.col⟩ }
      | .arrowLeft => { s with activeCell := some ⟨a.row, a.col - 1⟩ }
      | .arrowRight => { s with activeCell := some ⟨a.row, min (numCols - 1) (a.col + 1)⟩ }
      | .enter => { s with editingCell := some a }
      | .tab shift => { s with activeCell := some (tabNext numRows numCols a shift) }
      | .other => s

/-- One event per handler of the `Table` component and of the `EditableCell`
instance it renders.  `resizeStart` carries the size the handler reads from
the props; `outsideMouseDown` carries whether
`event.target.closest('td, th, .context-menu')` matched; `editKey`/`editBlur`
carry the local buffer and the committed content of the editing cell. -/
inductive Ev where
  | keyDown (key : Key)
  | cellClick (rowIndex colIndex : Nat)
  | cellDoubleClick (rowIndex colIndex : Nat)
  | resizeStart (type : ResizeType) (index : Nat) (pos size : Int)
  | mouseUp
  | outsideMouseDown (insideCellHeaderOrMenu : Bool)
  | openColumnMenu (x y : Int) (colIndex : Nat)
  | openCellMenu (x y : Int) (rowIndex colIndex : Nat)
  | closeColumnMenu
  | closeCellMenu
  | editKey (rowIndex colIndex : Nat) (inputValue content : String) (key : EditKey)
  | editBlur (rowIndex colIndex : Nat) (inputValue content : String)
deriving DecidableEq, Repr

/-- One handler invocation, translated handler by handler:
  * `keyDown` — the global `handleKeyDown` (lines 41-92);
  * `cellClick` — `EditableCell`'s `onClick`
    (`src/components/ContextMenu.tsx` lines 214-217): return if this cell is
    already editing, otherwise `setEditingCell({row, col})`;
  * `cellDoubleClick` — `onDoubleClick` (line 218): `setEditingCell({row, col})`;
  * `resizeStart` — `handleResizeStart` (lines 130-138): record the session;
    `preventDefault`/`stopPropagation` mean no other state field is touched;
  * `mouseUp` — `handleMouseUp` (line 112): `setResizing(null)`;
  * `outsideMouseDown` — `handleOutsideClick` (lines 140-148): clear
    `activeCell` when the target is outside every `td`, `th` and
    `.context-menu` subtree;
  * `openColumnMenu` — `handleOpenContextMenu` (lines 151-156):
    `setCellContextMenu(null)` then `setContextMenu(...)`;
  * `openCellMenu` — `handleOpenCellContextMenu` (lines 158-162):
    `setContextMenu(null)` then `setCellContextMenu(...)`;
  * `closeColumnMenu`/`closeCellMenu` — the `onClose` props (lines 294, 303);
  * `editKey`/`editBlur` — `EditableCell.handleKeyDown` and the textarea's
    `onBlur`, only live while this cell is the editing cell. -/
def step (numRows numCols : Nat) (s : TableState) : Ev → TableState
  | .keyDown key => handleKeyDown numRows numCols s key
  | .cellClick r c =>
      if s.editingCell = some ⟨r, c⟩ then s
      else { s with editingCell := some ⟨r, c⟩ }
  | .cellDoubleClick r c => { s with editingCell := some ⟨r, c⟩ }
  | .resizeStart t i pos size => { s with resizing := some ⟨t, i, pos, size⟩ }
  | .mouseUp => { s with resizing := none }
  | .outsideMouseDown inside =>
      if inside then s else { s with activeCell := none }
  | .openColumnMenu x y colIndex =>
      { s with cellContextMenu := none, contextMenu := some ⟨x, y, colIndex⟩ }
  | .openCellMenu x y r c =>
      { s with contextMenu := none, cellContextMenu := some ⟨x, y, r, c⟩ }
  | .closeColumnMenu => { s with contextMenu := none }
  | .closeCellMenu => { s with cellContextMenu := none }
  | .editKey r c inputValue content key =>
      if s.editingCell = some ⟨r, c⟩ then
        let res := handleEditKeyDown numRows numCols r c inputValue content key
        let s1 := match res.setActive with
                  | none => s
                  | some a => { s with activeCell := some a }
        match res.setEditing with
        | none => s1
        | some e => { s1 with editingCell := e }
      else s
  | .editBlur r c inputValue content =>
      if s.editingCell = some ⟨r, c⟩ then
        { s with editingCell := (commitChanges inputValue content r c).2 }
      else s

/-- Run a sequence of handler invocations. -/
def runEvents (numRows numCols : Nat) (s : TableState) (evs : List Ev) : TableState :=
  evs.foldl (step numRows numCols) s

/-- `onClick` of the legacy duplicated table variant
(`src/unnamed/part_000` lines 252-255): return if this cell is editing,
otherwise `setActiveCell({row, col})`; `setEditingCell` is not called.
Returns the pair (new `activeCell`, new `editingCell`). -/
def legacyCellClick (activeCell editingCell : Option Coord) (rowIndex colIndex : Nat) :
    Option Coord × Option Coord :=
  if editingCell = some ⟨rowIndex, colIndex⟩ then (activeCell, editingCell)
  else (some ⟨rowIndex, colIndex⟩, editingCell)

/-! ## Sample data for concrete runs -/

/-- A concrete well-formed cell. -/
def cellAlpha : Cell :=
  ⟨"cell-a", "alpha", "black", "white", 14, .normal⟩

/-- A second concrete well-formed cell with a distinct style. -/
def cellBeta : Cell :=
  ⟨"cell-b", "beta", "blue", "yellow", 18, .bold⟩

/-- A concrete header column of default width. -/
def colA : Column := ⟨"col-a", true, 200⟩

/-- A concrete non-header column of default width. -/
def colB : Column := ⟨"col-b", false, 200⟩

/-! ## Theorems -/

/-- C1: For every grid of `R` rows and `C` columns with `R, C ≥ 1` and every
current active cell `{row, col}`, Tab sets the new active cell to the
coordinates of linear index `(row*C + col + 1) mod (R*C)` and Shift-Tab to
`(row*C + col - 1 + R*C) mod (R*C)` under the row-major flattening
`index = row*colCount + col` (the produced pair is the unique in-range
decomposition of that index); Tab from the last linear cell wraps to `{0,0}`
and Shift-Tab from `{0,0}` wraps to the last linear cell; the in-edit handler
computes the same cell as the non-editing global handler, and the global
handler stores the computed cell in `activeCell`. -/
theorem tab_navigation_correct
    (R C row col : Nat) (s : TableState) (shift : Bool)
    (hR : 1 ≤ R) (hC : 1 ≤ C) (hrow : row < R) (hcol : col < C)
    (hedit : s.editingCell = none) (hactive : s.activeCell = some ⟨row, col⟩) :
    tabNext R C ⟨row, col⟩ false
        = ⟨(row * C + col + 1) % (R * C) / C, (row * C + col + 1) % (R * C) % C⟩
    ∧ tabNext R C ⟨row, col⟩ true
        = ⟨(row * C + col + (R * C) - 1) % (R * C) / C,
           (row * C + col + (R * C) - 1) % (R * C) % C⟩
    ∧ ((row * C + col + 1) % (R * C) / C) * C + (row * C + col + 1) % (R * C) % C
        = (row * C + col + 1) % (R * C)
    ∧ (row * C + col + 1) % (R * C) / C < R
    ∧ (row * C + col + 1) % (R * C) % C < C
    ∧ editTabNext R C row col shift = tabNext R C ⟨row, col⟩ shift
    ∧ tabNext R C ⟨R - 1, C - 1⟩ false = ⟨0, 0⟩
    ∧ tabNext R C ⟨0, 0⟩ true = ⟨R - 1, C - 1⟩
    ∧ (handleKeyDown R C s (.tab shift)).activeCell
        = some (tabNext R C ⟨row, col⟩ shift) := by
  have hCpos : 0 < C := hC
  have hn : 0 < C * R := Nat.mul_pos hCpos hR
  have hcomm : R * C = C * R := Nat.mul_comm R C
  have h1 : tabNext R C ⟨row, col⟩ false
      = ⟨(row * C + col + 1) % (R * C) / C, (row * C + col + 1) % (R * C) % C⟩ := by
    rw [hcomm]; rfl
  have h2 : tabNext R C ⟨row, col⟩ true
      = ⟨(row * C + col + (R * C) - 1) % (R * C) / C,
         (row * C + col + (R * C) - 1) % (R * C) % C⟩ := by
    rw [hcomm]; rfl
  have hi1 : (row * C + col + 1) % (R * C) < R * C := by
    rw [hcomm]; exact Nat.mod_lt _ hn
  have h3 : ((row * C + col + 1) % (R * C) / C) * C + (row * C + col + 1) % (R * C) % C
      = (row * C + col + 1) % (R * C) := Nat.div_add_mod' _ _
  have h4 : (row * C + col + 1) % (R * C) / C < R :=
    (Nat.div_lt_iff_lt_mul hCpos).mpr hi1
  have h5 : (row * C + col + 1) % (R * C) % C < C := Nat.mod_lt _ hCpos
  have h6 : editTabNext R C row col shift = tabNext R C ⟨row, col⟩ shift := rfl
  have h7 : tabNext R C ⟨R - 1, C - 1⟩ false = ⟨0, 0⟩ := by
    show (⟨((R - 1) * C + (C - 1) + 1) % (C * R) / C,
           ((R - 1) * C + (C - 1) + 1) % (C * R) % C⟩ : Coord) = ⟨0, 0⟩
    have key : (R - 1) * C + (C - 1) + 1 = C * R := by
      obtain ⟨R', rfl⟩ : ∃ k, R = k + 1 := ⟨R - 1, by omega⟩
      obtain ⟨C', rfl⟩ : ∃ k, C = k + 1 := ⟨C - 1, by omega⟩
      simp only [Nat.add_sub_cancel]
      ring
    rw [key, Nat.mod_self]
    simp
  have h8 : tabNext R C ⟨0, 0⟩ true = ⟨R - 1, C - 1⟩ := by
    show (⟨(0 * C + 0 + C * R - 1) % (C * R) / C,
           (0 * C + 0 + C * R - 1) % (C * R) % C⟩ : Coord) = ⟨R - 1, C - 1⟩
    have e1 : 0 * C + 0 + C * R - 1 = C * R - 1 := by simp
    have e3 : (C * R - 1) % (C * R) = C * R - 1 :=
      Nat.mod_eq_of_lt (Nat.sub_lt hn Nat.one_pos)
    have e4 : C * R - 1 = C * (R - 1) + (C - 1) := by
      obtain ⟨R', rfl⟩ : ∃ k, R = k + 1 := ⟨R - 1, by omega⟩
      obtain ⟨C', rfl⟩ : ∃ k, C = k + 1 := ⟨C - 1, by omega⟩
      simp only [Nat.add_sub_cancel]
      have : (C' + 1) * (R' + 1) = (C' + 1) * R' + C' + 1 := by ring
      rw [this, Nat.add_sub_cancel]
    have d1 : (C * (R - 1) + (C - 1)) / C = (R - 1) + (C - 1) / C :=
      Nat.mul_add_div hCpos _ _
    have d2 : (C - 1) / C = 0 := Nat.div_eq_of_lt (by omega)
    have m1 : (C * (R - 1) + (C - 1)) % C = (C - 1) % C := Nat.mul_add_mod _ _ _
    have m2 : (C - 1) % C = C - 1 := Nat.mod_eq_of_lt (by omega)
    rw [e1, e3, e4, d1, d2, m1, m2, Nat.add_zero]
  have h9 : (handleKeyDown R C s (.tab shift)).activeCell
      = some (tabNext R C ⟨row, col⟩ shift) := by
    simp [handleKeyDown, hedit, hactive]
  exact ⟨h1, h2, h3, h4, h5, h6, h7, h8, h9⟩

/-- Witness for C1 at the 2×3 grid, active cell `{1, 2}` (its last linear
cell), Tab without Shift. -/
theorem tab_navigation_correct_witness :
    tabNext 2 3 ⟨1, 2⟩ false
        = ⟨(1 * 3 + 2 + 1) % (2 * 3) / 3, (1 * 3 + 2 + 1) % (2 * 3) % 3⟩
    ∧ tabNext 2 3 ⟨1, 2⟩ true
        = ⟨(1 * 3 + 2 + (2 * 3) - 1) % (2 * 3) / 3,
           (1 * 3 + 2 + (2 * 3) - 1) % (2 * 3) % 3⟩
    ∧ ((1 * 3 + 2 + 1) % (2 * 3) / 3) * 3 + (1 * 3 + 2 + 1) % (2 * 3) % 3
        = (1 * 3 + 2 + 1) % (2 * 3)
    ∧ (1 * 3 + 2 + 1) % (2 * 3) / 3 < 2
    ∧ (1 * 3 + 2 + 1) % (2 * 3) % 3 < 3
    ∧ editTabNext 2 3 1 2 false = tabNext 2 3 ⟨1, 2⟩ false
    ∧ tabNext 2 3 ⟨2 - 1, 3 - 1⟩ false = ⟨0, 0⟩
    ∧ tabNext 2 3 ⟨0, 0⟩ true = ⟨2 - 1, 3 - 1⟩
    ∧ (handleKeyDown 2 3 ⟨some ⟨1, 2⟩, none, none, none, none⟩ (.tab false)).activeCell
        = some (tabNext 2 3 ⟨1, 2⟩ false) :=
  tab_navigation_correct 2 3 1 2 ⟨some ⟨1, 2⟩, none, none, none, none⟩ false
    (by decide) (by decide) (by decide) (by decide) rfl rfl

/-- C2 counterexample: double-clicking cell `{0,0}` starts an edit session;
a subsequent pointer-down on a column resize handle starts a resize session
without `handleResizeStart` touching `editingCell`, so `EditingCell` and
`ResizeSession` are simultaneously non-none — the claimed mutual exclusion
fails at this observation point. -/
theorem resize_edit_exclusion_refuted :
    (runEvents 3 3 initialTableState
        [.cellDoubleClick 0 0, .resizeStart .col 0 100 200]).editingCell = some ⟨0, 0⟩
    ∧ (runEvents 3 3 initialTableState
        [.cellDoubleClick 0 0, .resizeStart .col 0 100 200]).resizing
        = some ⟨.col, 0, 100, 200⟩ :=
  ⟨rfl, rfl⟩

/-- C2 amended: a pointer-down on a resize handle only starts the resize
session — `handleResizeStart` leaves `activeCell` and `editingCell` unchanged
(its `preventDefault`/`stopPropagation` keep the gesture from activating the
cell beneath) — but it does not end a live edit session, so `EditingCell` and
`ResizeSession` may be simultaneously non-none when a resize starts during an
edit. -/
theorem resize_start_effect (R C : Nat) (s : TableState) (t : ResizeType)
    (i : Nat) (pos size : Int) :
    (step R C s (.resizeStart t i pos size)).activeCell = s.activeCell
    ∧ (step R C s (.resizeStart t i pos size)).editingCell = s.editingCell
    ∧ (step R C s (.resizeStart t i pos size)).resizing = some ⟨t, i, pos, size⟩ :=
  ⟨rfl, rfl, rfl⟩

/-- C3: committing an edit session emits no content-mutation request when the
buffer equals the committed content, emits exactly the one request
`(row, col, newContent)` when it differs, and clears `editingCell`
(`setEditingCell(null)`); the Enter-without-Shift and Tab branches of the
in-edit key handler and the textarea blur all route their emission through
this `commitChanges`, and the Enter branch and blur leave the editing cell
cleared. -/
theorem commit_behavior (inputValue content : String) (r c R C : Nat)
    (shift : Bool) (s : TableState) (hs : s.editingCell = some ⟨r, c⟩) :
    (commitChanges inputValue content r c).2 = none
    ∧ (inputValue = content → (commitChanges inputValue content r c).1 = [])
    ∧ (inputValue ≠ content →
        (commitChanges inputValue content r c).1 = [⟨r, c, inputValue⟩])
    ∧ (handleEditKeyDown R C r c inputValue content (.enter false)).emits
        = (commitChanges inputValue content r c).1
    ∧ (handleEditKeyDown R C r c inputValue content (.tab shift)).emits
        = (commitChanges inputValue content r c).1
    ∧ (handleEditKeyDown R C r c inputValue content (.enter false)).setEditing
        = some none
    ∧ (step R C s (.editBlur r c inputValue content)).editingCell = none := by
  refine ⟨rfl, ?_, ?_, rfl, rfl, rfl, ?_⟩
  · intro h
    simp [commitChanges, h]
  · intro h
    simp [commitChanges, h]
  · simp [step, hs, commitChanges]

/-- Witness for C3: buffer `"foobar"` over committed content `"foo"` at cell
`{1, 1}` of a 3×3 grid. -/
theorem commit_behavior_witness :
    (commitChanges "foobar" "foo" 1 1).2 = none
    ∧ ("foobar" = "foo" → (commitChanges "foobar" "foo" 1 1).1 = [])
    ∧ ("foobar" ≠ "foo" →
        (commitChanges "foobar" "foo" 1 1).1 = [⟨1, 1, "foobar"⟩])
    ∧ (handleEditKeyDown 3 3 1 1 "foobar" "foo" (.enter false)).emits
        = (commitChanges "foobar" "foo" 1 1).1
    ∧ (handleEditKeyDown 3 3 1 1 "foobar" "foo" (.tab false)).emits
        = (commitChanges "foobar" "foo" 1 1).1
    ∧ (handleEditKeyDown 3 3 1 1 "foobar" "foo" (.enter false)).setEditing
        = some none
    ∧ (step 3 3 ⟨some ⟨1, 1⟩, some ⟨1, 1⟩, none, none, none⟩
        (.editBlur 1 1 "foobar" "foo")).editingCell = none :=
  commit_behavior "foobar" "foo" 1 1 3 3 false
    ⟨some ⟨1, 1⟩, some ⟨1, 1⟩, none, none, none⟩ rfl

/-- C4: during a drag-resize session every pointer-movement sample emits
exactly the size `max(startSize + (pointer - startPointerPos), MIN_SIZE)`
along the session's axis, with `MIN_SIZE = MIN_COL_WIDTH = 50` for column
sessions and `MIN_ROW_HEIGHT = 28` for row sessions; the emitted size never
falls below the floor, and the spec's example (startSize 200, start pointer
100, pointer at 30) yields 130. -/
theorem resize_floor (index : Nat) (startPos startSize clientX clientY : Int) :
    handleMouseMove (some ⟨.col, index, startPos, startSize⟩) clientX clientY
        = [.colWidth index (max (startSize + (clientX - startPos)) MIN_COL_WIDTH)]
    ∧ handleMouseMove (some ⟨.row, index, startPos, startSize⟩) clientX clientY
        = [.rowHeight index (max (startSize + (clientY - startPos)) MIN_ROW_HEIGHT)]
    ∧ MIN_COL_WIDTH ≤ max (startSize + (clientX - startPos)) MIN_COL_WIDTH
    ∧ MIN_ROW_HEIGHT ≤ max (startSize + (clientY - startPos)) MIN_ROW_HEIGHT
    ∧ MIN_COL_WIDTH = 50 ∧ MIN_ROW_HEIGHT = 28
    ∧ handleMouseMove (some ⟨.col, 0, 100, 200⟩) 30 0 = [.colWidth 0 130] :=
  ⟨rfl, rfl, le_max_right _ _, le_max_right _ _, rfl, rfl, rfl⟩

/-- C5: the code performs no bounds validation when an asynchronous clipboard
operation resolves with a stale coordinate.  Concretely: on the 1×2 grid
`[[cellAlpha, cellBeta]]`, deleting column 1 leaves the 1×1 grid
`[[cellAlpha]]`; an in-flight paste that then resolves for the captured
coordinate `(0, 1)` mutates the grid at the out-of-range column — appending
the malformed object `{ content: "pasted" }` (no `id`, no style attributes) —
instead of being dropped, and a paste resolving for a stale row index `(1, 0)`
throws a `TypeError` instead of being silently dropped. -/
theorem stale_paste_not_dropped :
    deleteColumn [colA, colB] [[cellAlpha, cellBeta]] [40] 1
        = ([colA], [[cellAlpha]], [40])
    ∧ handlePasteResolve (toJsGrid [[cellAlpha]]) 0 1 "pasted"
        = .ok [[.cell cellAlpha, .partialCell "pasted"]]
    ∧ handlePasteResolve (toJsGrid [[cellAlpha]]) 1 0 "pasted" = .error () :=
  ⟨rfl, rfl, rfl⟩

/-- C6: Copy Style captures exactly the four style attributes
`{color, backgroundColor, fontSize, fontWeight}` of the source cell —
`CellStyle` has no identity or content component — into the shared slot,
overwriting whatever it held; Paste Style afterwards issues a single
style-mutation request and leaves the target cell with exactly the source's
four style attributes while keeping the target's `id` and `content`. -/
theorem copy_paste_style (src tgt : Cell) (prev : Option CellStyle)
    (tableData : List (List Cell)) (r c : Nat) (row : List Cell)
    (hrow : tableData.get? r = some row) (hcell : row.get? c = some tgt) :
    handleCopyStyle src prev = some (copyStyleOf src)
    ∧ (copyStyleOf src).color = src.color
    ∧ (copyStyleOf src).backgroundColor = src.backgroundColor
    ∧ (copyStyleOf src).fontSize = src.fontSize
    ∧ (copyStyleOf src).fontWeight = src.fontWeight
    ∧ pasteStyleRequests (handleCopyStyle src prev) r c
        = [(r, c, (copyStyleOf src).toPartial)]
    ∧ ((handlePasteStyle (handleCopyStyle src prev) tableData r c).get? r).bind
          (fun row2 => row2.get? c)
        = some { tgt with color := src.color, backgroundColor := src.backgroundColor,
                          fontSize := src.fontSize, fontWeight := src.fontWeight } := by
  refine ⟨rfl, rfl, rfl, rfl, rfl, rfl, ?_⟩
  show ((updateCellStyles tableData r c (copyStyleOf src).toPartial).get? r).bind
      (fun row2 => row2.get? c) = _
  simp only [updateCellStyles, hrow, hcell]
  have e1 : (tableData.set r (row.set c (spreadStyles tgt (copyStyleOf src).toPartial))).get? r
      = some (row.set c (spreadStyles tgt (copyStyleOf src).toPartial)) := by
    rw [List.get?_set_eq, hrow]; rfl
  rw [e1]
  have e2 : (row.set c (spreadStyles tgt (copyStyleOf src).toPartial)).get? c
      = some (spreadStyles tgt (copyStyleOf src).toPartial) := by
    rw [List.get?_set_eq, hcell]; rfl
  rw [Option.some_bind', e2]
  rfl

/-- Witness for C6: copy the style of `cellBeta` and paste it onto `cellAlpha`
at `(0, 0)` of the 1×2 grid `[[cellAlpha, cellBeta]]`. -/
theorem copy_paste_style_witness :
    handleCopyStyle cellBeta none = some (copyStyleOf cellBeta)
    ∧ (copyStyleOf cellBeta).color = cellBeta.color
    ∧ (copyStyleOf cellBeta).backgroundColor = cellBeta.backgroundColor
    ∧ (copyStyleOf cellBeta).fontSize = cellBeta.fontSize
    ∧ (copyStyleOf cellBeta).fontWeight = cellBeta.fontWeight
    ∧ pasteStyleRequests (handleCopyStyle cellBeta none) 0 0
        = [(0, 0, (copyStyleOf cellBeta).toPartial)]
    ∧ ((handlePasteStyle (handleCopyStyle cellBeta none) [[cellAlpha, cellBeta]] 0 0).get? 0).bind
          (fun row2 => row2.get? 0)
        = some { cellAlpha with
                  color := cellBeta.color, backgroundColor := cellBeta.backgroundColor,
                  fontSize := cellBeta.fontSize, fontWeight := cellBeta.fontWeight } :=
  copy_paste_style cellBeta cellAlpha none [[cellAlpha, cellBeta]] 0 0
    [cellAlpha, cellBeta] rfl rfl

/-- `filterOutIndexAux j i l` removes nothing once the running index has
passed `j`. -/
theorem filterOutIndexAux_high {α : Type} (j : Nat) (l : List α) :
    ∀ i, j < i → filterOutIndexAux j i l = l := by
  induction l with
  | nil => intro i _; rfl
  | cons x xs ih =>
      intro i h
      have hne : i ≠ j := by omega
      simp [filterOutIndexAux, hne, ih (i + 1) (by omega)]

/-- `filterOutIndexAux` removes at most one element. -/
theorem filterOutIndexAux_length {α : Type} (j : Nat) (l : List α) :
    ∀ i, l.length - 1 ≤ (filterOutIndexAux j i l).length := by
  induction l with
  | nil => intro i; simp [filterOutIndexAux]
  | cons x xs ih =>
      intro i
      by_cases h : i = j
      · subst h
        have e : filterOutIndexAux i i (x :: xs) = filterOutIndexAux i (i + 1) xs := by
          simp [filterOutIndexAux]
        rw [e, filterOutIndexAux_high i xs (i + 1) (by omega)]
        simp
      · have := ih (i + 1)
        simp only [filterOutIndexAux, if_pos h, List.length_cons]
        omega

/-- C7: a delete-column request with exactly one column left is a no-op —
columns, table data and row heights are returned unchanged and no error is
produced; `deleteColumn` never touches `rowHeights` at all, and whenever at
least one column exists before the call, at least one remains after it. -/
theorem delete_last_column_noop (columns : List Column) (tableData : List (List Cell))
    (rowHeights : List Int) (colIndex : Nat) :
    (columns.length = 1 →
        deleteColumn columns tableData rowHeights colIndex
          = (columns, tableData, rowHeights))
    ∧ (1 ≤ columns.length →
        1 ≤ (deleteColumn columns tableData rowHeights colIndex).1.length)
    ∧ (deleteColumn columns tableData rowHeights colIndex).2.2 = rowHeights := by
  refine ⟨?_, ?_, ?_⟩
  · intro h
    simp [deleteColumn, h]
  · intro h
    by_cases h2 : columns.length ≤ 1
    · simp [deleteColumn, h2]
      omega
    · simp only [deleteColumn, if_neg h2]
      have := filterOutIndexAux_length colIndex columns 0
      unfold filterOutIndex
      omega
  · by_cases h2 : columns.length ≤ 1 <;> simp [deleteColumn, h2]

/-- Witness for C7: deleting column 0 of a one-column grid changes nothing. -/
theorem delete_last_column_noop_witness :
    deleteColumn [colA] [[cellAlpha]] [40] 0 = ([colA], [[cellAlpha]], [40])
    ∧ 1 ≤ (deleteColumn [colA] [[cellAlpha]] [40] 0).1.length :=
  ⟨(delete_last_column_noop [colA] [[cellAlpha]] [40] 0).1 rfl,
   (delete_last_column_noop [colA] [[cellAlpha]] [40] 0).2.1 (by decide)⟩

/-- The global key handler never touches either context menu. -/
theorem handleKeyDown_menus (R C : Nat) (s : TableState) (key : Key) :
    (handleKeyDown R C s key).contextMenu = s.contextMenu
    ∧ (handleKeyDown R C s key).cellContextMenu = s.cellContextMenu := by
  by_cases h : s.editingCell.isSome <;>
    cases hA : s.activeCell <;>
      cases key <;>
        simp [handleKeyDown, h, hA, Key.isArrow]

/-- Every handler either leaves both context-menu states unchanged or closes
at least one of them. -/
theorem step_menus (R C : Nat) (s : TableState) (ev : Ev) :
    ((step R C s ev).contextMenu = s.contextMenu
      ∧ (step R C s ev).cellContextMenu = s.cellContextMenu)
    ∨ (step R C s ev).cellContextMenu = none
    ∨ (step R C s ev).contextMenu = none := by
  cases ev with
  | keyDown key => exact Or.inl (handleKeyDown_menus R C s key)
  | cellClick r c =>
      left
      constructor <;> (simp only [step]; split <;> rfl)
  | cellDoubleClick r c => exact Or.inl ⟨rfl, rfl⟩
  | resizeStart t i pos size => exact Or.inl ⟨rfl, rfl⟩
  | mouseUp => exact Or.inl ⟨rfl, rfl⟩
  | outsideMouseDown inside =>
      left
      constructor <;> (simp only [step]; split <;> rfl)
  | openColumnMenu x y ci => exact Or.inr (Or.inl rfl)
  | openCellMenu x y r c => exact Or.inr (Or.inr rfl)
  | closeColumnMenu => exact Or.inr (Or.inr rfl)
  | closeCellMenu => exact Or.inr (Or.inl rfl)
  | editKey r c inputValue content key =>
      left
      constructor <;>
        (simp only [step]
         split
         · cases h1 : (handleEditKeyDown R C r c inputValue content key).setActive <;>
             cases h2 : (handleEditKeyDown R C r c inputValue content key).setEditing <;>
               simp [h1, h2]
         · rfl)
  | editBlur r c inputValue content =>
      left
      constructor <;> (simp only [step]; split <;> rfl)

/-- One handler invocation preserves menu exclusivity. -/
theorem step_menus_exclusive (R C : Nat) (s : TableState) (ev : Ev)
    (h : ¬(s.contextMenu.isSome ∧ s.cellContextMenu.isSome)) :
    ¬((step R C s ev).contextMenu.isSome ∧ (step R C s ev).cellContextMenu.isSome) := by
  rcases step_menus R C s ev with ⟨h1, h2⟩ | h1 | h1
  · rw [h1, h2]; exact h
  · rw [h1]; simp
  · rw [h1]; simp

/-- Menu exclusivity is preserved along any event sequence. -/
theorem runEvents_menus_exclusive (R C : Nat) (evs : List Ev) :
    ∀ s : TableState, ¬(s.contextMenu.isSome ∧ s.cellContextMenu.isSome) →
      ¬((runEvents R C s evs).contextMenu.isSome
        ∧ (runEvents R C s evs).cellContextMenu.isSome) := by
  induction evs with
  | nil => intro s h; exact h
  | cons e es ih =>
      intro s h
      exact ih (step R C s e) (step_menus_exclusive R C s e h)

/-- C8: at most one top-level contextual menu is open at any time — opening
the column menu closes the cell menu, opening the cell menu closes the column
menu, and along every handler sequence from the initial state the two menu
states are never simultaneously non-none. -/
theorem one_menu_open (R C : Nat) (evs : List Ev) (s : TableState)
    (x y : Int) (ci rr cc : Nat) :
    (step R C s (.openColumnMenu x y ci)).cellContextMenu = none
    ∧ (step R C s (.openColumnMenu x y ci)).contextMenu = some ⟨x, y, ci⟩
    ∧ (step R C s (.openCellMenu x y rr cc)).contextMenu = none
    ∧ (step R C s (.openCellMenu x y rr cc)).cellContextMenu = some ⟨x, y, rr, cc⟩
    ∧ ¬((runEvents R C initialTableState evs).contextMenu.isSome
        ∧ (runEvents R C initialTableState evs).cellContextMenu.isSome) :=
  ⟨rfl, rfl, rfl, rfl,
   runEvents_menus_exclusive R C evs initialTableState (by simp [initialTableState])⟩

/-- C9 counterexample: in the `EditableCell` used by the primary `Table`
(`src/components/ContextMenu.tsx` lines 214-217), a single click on cell
`{0,0}` of a fresh grid — a cell not currently being edited — sets
`editingCell` (an edit session begins) and leaves `activeCell` untouched, so
the click does not merely activate the cell. -/
theorem click_activates_refuted :
    (step 3 3 initialTableState (.cellClick 0 0)).editingCell = some ⟨0, 0⟩
    ∧ (step 3 3 initialTableState (.cellClick 0 0)).activeCell = none :=
  ⟨rfl, rfl⟩

/-- C9 amended: the two duplicated table variants diverge.  In the primary
`EditableCell` a single click on a cell not being edited begins an edit
session directly (single-click-edits), leaving `activeCell` unchanged; in the
legacy variant (`src/unnamed/part_000` lines 252-255) a single click makes
the cell the active cell without beginning an edit session; in both, a
double-click begins an edit session, and Enter while a cell is active and
nothing is being edited begins an edit session on the active cell. -/
theorem cell_click_variants (R C r c : Nat) (s : TableState)
    (a e : Option Coord) (ac : Coord)
    (hne : e ≠ some ⟨r, c⟩) (hedit : s.editingCell = none)
    (hact : s.activeCell = some ac) :
    ((step R C s (.cellClick r c)).editingCell = some ⟨r, c⟩
      ∧ (step R C s (.cellClick r c)).activeCell = s.activeCell)
    ∧ legacyCellClick a e r c = (some ⟨r, c⟩, e)
    ∧ (step R C s (.cellDoubleClick r c)).editingCell = some ⟨r, c⟩
    ∧ (handleKeyDown R C s .enter).editingCell = some ac := by
  refine ⟨⟨?_, ?_⟩, ?_, rfl, ?_⟩
  · simp [step, hedit]
  · simp [step, hedit]
  · simp [legacyCellClick, hne]
  · simp [handleKeyDown, hedit, hact]

/-- Witness for the amended C9: click, legacy click, double-click and Enter
at concrete cells of a 3×3 grid with active cell `{0,0}` and no edit open. -/
theorem cell_click_variants_witness :
    ((step 3 3 ⟨some ⟨0, 0⟩, none, none, none, none⟩ (.cellClick 1 0)).editingCell
        = some ⟨1, 0⟩
      ∧ (step 3 3 ⟨some ⟨0, 0⟩, none, none, none, none⟩ (.cellClick 1 0)).activeCell
        = (⟨some ⟨0, 0⟩, none, none, none, none⟩ : TableState).activeCell)
    ∧ legacyCellClick none none 1 0 = (some ⟨1, 0⟩, none)
    ∧ (step 3 3 ⟨some ⟨0, 0⟩, none, none, none, none⟩ (.cellDoubleClick 1 0)).editingCell
        = some ⟨1, 0⟩
    ∧ (handleKeyDown 3 3 ⟨some ⟨0, 0⟩, none, none, none, none⟩ .enter).editingCell
        = some ⟨0, 0⟩ :=
  cell_click_variants 3 3 1 0 ⟨some ⟨0, 0⟩, none, none, none, none⟩ none none ⟨0, 0⟩
    (by decide) rfl rfl

/-- C10: a mousedown whose target lies outside every table cell, header and
open context-menu subtree clears `activeCell` to none (while an inside target
leaves it alone), so the next arrow key press — when no edit is open —
re-establishes `{0,0}` instead of moving from the previously active
coordinate. -/
theorem outside_mousedown_clears_active (R C : Nat) (s : TableState) (k : Key)
    (hk : k.isArrow = true) (hedit : s.editingCell = none) :
    (step R C s (.outsideMouseDown false)).activeCell = none
    ∧ (step R C s (.outsideMouseDown true)).activeCell = s.activeCell
    ∧ (handleKeyDown R C (step R C s (.outsideMouseDown false)) k).activeCell
        = some ⟨0, 0⟩ := by
  refine ⟨rfl, rfl, ?_⟩
  have h1 : (step R C s (.outsideMouseDown false)).editingCell = none := hedit
  have h2 : (step R C s (.outsideMouseDown false)).activeCell = none := rfl
  simp [handleKeyDown, h1, h2, hk]

/-- Witness for C10: active cell `{2,2}`, no edit open, outside mousedown,
then ArrowRight lands on `{0,0}`. -/
theorem outside_mousedown_clears_active_witness :
    (step 3 3 ⟨some ⟨2, 2⟩, none, none, none, none⟩ (.outsideMouseDown false)).activeCell
        = none
    ∧ (step 3 3 ⟨some ⟨2, 2⟩, none, none, none, none⟩ (.outsideMouseDown true)).activeCell
        = (⟨some ⟨2, 2⟩, none, none, none, none⟩ : TableState).activeCell
    ∧ (handleKeyDown 3 3
          (step 3 3 ⟨some ⟨2, 2⟩, none, none, none, none⟩ (.outsideMouseDown false))
          .arrowRight).activeCell = some ⟨0, 0⟩ :=
  outside_mousedown_clears_active 3 3 ⟨some ⟨2, 2⟩, none, none, none, none⟩
    .arrowRight rfl rfl

end FreeEasyTable
